import Mathlib

/-!
# Verification of the TrueNAS app-control client

A shallow embedding of the WebSocket client in `src/truenas-client.js`
(class `TrueNASClient`): constructor validation, the connect/authenticate
handshake, message-id allocation and response correlation for
`callMethod`, the `waitForJob` polling loop, and the four operations
`getAppStatus` / `stopApp` / `startApp` / `restartApp`.

Modelling conventions:
* The remote server is a deterministic oracle (`Server`): each remote
  method is a function from its argument to the reply the channel would
  deliver for it; the reply to the k-th `core.get_jobs` poll of a wait
  is indexed by the poll counter k.
* Fallible JS code (throw/reject) is `Except String`; the thrown message
  is the payload.
* `callMethod`'s rejection message is the source's
  `Method call failed: <server message>` composition, built by
  `methodErr`.
* Time inside `waitForJob` is modelled by the poll counter: the loop
  sleeps a fixed 2000 ms after each poll and the remote calls themselves
  take no model time, so the elapsed time read by the loop guard at the
  start of iteration k is exactly `2000 * k` ms.
* Each operation returns its result together with the list of remote
  calls it issued, in order (`List RemoteCall`), so that claims of the
  form "no `app.stop` call is issued" are about the trace.
-/

namespace TrueNAS

/-! ## String helpers

JavaScript `String.prototype.includes` / the small parts of
`String.prototype.replace` and the URL regex that the source uses,
modelled on the character lists underlying `String`. -/

/-- `listStarts p s` is true iff the list `p` is an initial segment of `s`
(the character-list form of JavaScript `startsWith`). -/
def listStarts : List Char → List Char → Bool
  | [], _ => true
  | _ :: _, [] => false
  | a :: as, b :: bs => a == b && listStarts as bs

/-- `hasSubList p s` is true iff `p` occurs contiguously inside `s`
(the character-list form of JavaScript `includes`). -/
def hasSubList (p : List Char) : List Char → Bool
  | [] => p.isEmpty
  | c :: cs => listStarts p (c :: cs) || hasSubList p cs

/-- JavaScript `s.includes(sub)`. -/
def strIncludes (s sub : String) : Bool := hasSubList sub.data s.data

/-- JavaScript `s.startsWith(p)`. -/
def strStarts (s p : String) : Bool := listStarts p.data s.data

/-- First-occurrence replacement on character lists: the behaviour of
JavaScript `s.replace(pat, rep)` when `pat` is a plain string. -/
def replaceFirstL (pat rep : List Char) : List Char → List Char
  | [] => if pat.isEmpty then rep else []
  | c :: cs =>
    if listStarts pat (c :: cs) then rep ++ (c :: cs).drop pat.length
    else c :: replaceFirstL pat rep cs

/-- JavaScript `s.replace(pat, rep)` (plain-string pattern: first
occurrence only). -/
def replaceFirst (s pat rep : String) : String :=
  ⟨replaceFirstL pat.data rep.data s.data⟩

/-- The single-quote character, used in the client's thrown messages. -/
def sq : String := ⟨[Char.ofNat 39]⟩

/-- The app-name emptiness check `appName.trim().length === 0`: the
trimmed string is empty iff every character is whitespace. -/
def trimEmpty (s : String) : Bool := s.data.all Char.isWhitespace

instance {ε α : Type} [DecidableEq ε] [DecidableEq α] :
    DecidableEq (Except ε α) := fun a b =>
  match a, b with
  | .ok x, .ok y =>
    if h : x = y then .isTrue (by rw [h]) else .isFalse (by simp [h])
  | .error x, .error y =>
    if h : x = y then .isTrue (by rw [h]) else .isFalse (by simp [h])
  | .ok _, .error _ => .isFalse (by simp)
  | .error _, .ok _ => .isFalse (by simp)

theorem listStarts_iff (p s : List Char) :
    listStarts p s = true ↔ ∃ t, s = p ++ t := by
  induction p generalizing s with
  | nil => simp [listStarts]
  | cons a as ih =>
    cases s with
    | nil => simp [listStarts]
    | cons b bs =>
      simp only [listStarts, Bool.and_eq_true, beq_iff_eq, ih, List.cons_append,
        List.cons.injEq]
      constructor
      · rintro ⟨rfl, t, rfl⟩; exact ⟨t, rfl, rfl⟩
      · rintro ⟨t, rfl, rfl⟩; exact ⟨rfl, t, rfl⟩

/-! ## The remote side -/

/-- One entry of the list returned by `core.get_jobs`: the client reads
only the job's `id` and `state` (plus `error`/`progress`, which it only
logs). -/
structure Job where
  id : Int
  state : String
deriving DecidableEq, Repr

/-- The outcome of one `core.get_jobs` poll as delivered by the channel:
either the call rejects (a transient polling error, payload is the
server message) or it resolves with the job list. -/
inductive PollOutcome where
  | pollError (msg : String)
  | pollJobs (jobs : List Job)
deriving DecidableEq, Repr

/-- The `app.get_instance` application descriptor; the client reads only
its `state` field. -/
structure AppInfo where
  state : String
deriving DecidableEq, Repr

/-- The deterministic server oracle: what the channel replies to each
remote method.  `getJobs k` is the reply to the k-th `core.get_jobs`
poll of a `waitForJob` run.  An `Except.error` reply is the server-side
error object's message (before `callMethod` prepends its prefix). -/
structure Server where
  getInstance : String → Except String AppInfo
  appStop : String → Except String Int
  appStart : String → Except String Int
  getJobs : Nat → PollOutcome

/-- The remote calls an operation can issue, in the order sent. -/
inductive RemoteCall where
  | getInstance (name : String)
  | appStop (name : String)
  | appStart (name : String)
  | getJobs
deriving DecidableEq, Repr

/-- `callMethod`'s rejection message: `Method call failed: <message>`. -/
def methodErr (raw : String) : String := "Method call failed: " ++ raw

/-! ## `waitForJob` (src/truenas-client.js, lines 326-374)

```js
while (Date.now() - startTime < timeout) {
  try {
    const allJobs = await this.callMethod('core.get_jobs', []);
    const jobStatus = allJobs.find(job => job.id === jobId);
    if (jobStatus) {
      if (jobStatus.state === 'SUCCESS') return true;
      else if (jobStatus.state === 'FAILED') return false;
      else if (jobStatus.state === 'RUNNING') { /* log progress */ }
    }
    await sleep(2000);
  } catch (error) { /* log */ await sleep(2000); }  // continue on error
}
return false;
```

With the time model above, the guard at the start of iteration k is
`2000 * k < timeout`.  The recursion is driven by a fuel argument that
starts at `timeout + 1`; since iteration k is entered only when
`2000 * k < timeout` (so `k < timeout`), the fuel is never exhausted
before the time guard fails, and the fuel-0 branch returns the same
value `(false, k)` as the guard-false branch, so the fuel is only a
termination device, not a semantic change. -/

/-- The polling loop.  Arguments: server, job id, timeout (ms), fuel,
poll counter `k`.  Returns the boolean result together with the total
number of `core.get_jobs` calls issued. -/
def waitLoopAux (srv : Server) (jobId : Int) (timeout : Nat) :
    Nat → Nat → Bool × Nat
  | 0, k => (false, k)
  | fuel + 1, k =>
    if 2000 * k < timeout then
      match srv.getJobs k with
      | .pollError _ => waitLoopAux srv jobId timeout fuel (k + 1)
      | .pollJobs jobs =>
        match jobs.find? (fun j => j.id == jobId) with
        | some j =>
          if j.state == "SUCCESS" then (true, k + 1)
          else if j.state == "FAILED" then (false, k + 1)
          else waitLoopAux srv jobId timeout fuel (k + 1)
        | none => waitLoopAux srv jobId timeout fuel (k + 1)
    else (false, k)

/-- One full run of the polling loop from poll counter 0. -/
def waitForJobRun (srv : Server) (jobId : Int) (timeout : Nat) :
    Bool × Nat :=
  waitLoopAux srv jobId timeout (timeout + 1) 0

/-- The source's default timeout for `waitForJob` (30 seconds). -/
def defaultTimeout : Nat := 30000

/-- `waitForJob(jobId, timeout)`: validates the job id (the timeout
check `timeout && (typeof timeout !== 'number' || timeout <= 0)` can
never throw for a natural-number timeout, since `timeout = 0` is falsy),
then runs the polling loop. -/
def waitForJob (srv : Server) (jobId : Int) (timeout : Nat) :
    Except String Bool :=
  if jobId ≤ 0 then .error "Job ID must be a positive number"
  else .ok (waitForJobRun srv jobId timeout).1

/-- The `core.get_jobs` trace of a completed `waitForJob` run. -/
def waitTrace (srv : Server) (jobId : Int) (timeout : Nat) :
    List RemoteCall :=
  List.replicate (waitForJobRun srv jobId timeout).2 .getJobs

/-- What the loop body observes about the target job on poll `k`:
`none` when the poll errored or the job was absent from the list,
otherwise the state string of the first job with a matching id. -/
def observed (srv : Server) (jobId : Int) (k : Nat) : Option String :=
  match srv.getJobs k with
  | .pollError _ => none
  | .pollJobs jobs => (jobs.find? (fun j => j.id == jobId)).map (·.state)

/-- Elapsed model time (ms) at the start of poll `k`: the loop sleeps a
fixed 2000 ms after every poll that does not return. -/
def pollElapsed (k : Nat) : Nat := 2000 * k

/-! ## Characterisation of the polling loop -/

/-- From poll counter `k` on, some in-window poll `m` observes `SUCCESS`
and no earlier in-window poll (from `k` on) observes a terminal state. -/
def ReachesSuccessFirst (srv : Server) (jobId : Int) (timeout : Nat)
    (k : Nat) : Prop :=
  ∃ m, k ≤ m ∧ 2000 * m < timeout ∧
    observed srv jobId m = some "SUCCESS" ∧
    ∀ j, k ≤ j → j < m →
      observed srv jobId j ≠ some "SUCCESS" ∧
      observed srv jobId j ≠ some "FAILED"

theorem reachesSuccessFirst_step (srv : Server) (jobId : Int)
    (timeout : Nat) (k : Nat)
    (hs : observed srv jobId k ≠ some "SUCCESS")
    (hf : observed srv jobId k ≠ some "FAILED") :
    ReachesSuccessFirst srv jobId timeout k ↔
      ReachesSuccessFirst srv jobId timeout (k + 1) := by
  constructor
  · rintro ⟨m, hkm, hwin, hsucc, hmin⟩
    have hne : m ≠ k := fun he => hs (he ▸ hsucc)
    exact ⟨m, by omega, hwin, hsucc, fun j hj1 hj2 => hmin j (by omega) hj2⟩
  · rintro ⟨m, hkm, hwin, hsucc, hmin⟩
    refine ⟨m, by omega, hwin, hsucc, fun j hj1 hj2 => ?_⟩
    rcases Nat.eq_or_lt_of_le hj1 with he | hlt
    · exact he ▸ ⟨hs, hf⟩
    · exact hmin j hlt hj2

theorem not_reachesSuccessFirst_of_elapsed (srv : Server) (jobId : Int)
    (timeout : Nat) (k : Nat) (h : timeout ≤ 2000 * k) :
    ¬ ReachesSuccessFirst srv jobId timeout k := by
  rintro ⟨m, hkm, hwin, -⟩
  have : 2000 * k ≤ 2000 * m := Nat.mul_le_mul_left _ hkm
  omega

theorem waitLoopAux_true_iff (srv : Server) (jobId : Int)
    (timeout : Nat) :
    ∀ fuel k, timeout ≤ 2000 * (k + fuel) →
      ((waitLoopAux srv jobId timeout fuel k).1 = true ↔
        ReachesSuccessFirst srv jobId timeout k) := by
  intro fuel
  induction fuel with
  | zero =>
    intro k hk
    exact iff_of_false (by simp [waitLoopAux])
      (not_reachesSuccessFirst_of_elapsed srv jobId timeout k (by omega))
  | succ fuel ih =>
    intro k hk
    by_cases hg : 2000 * k < timeout
    · have hrec := ih (k + 1) (by omega)
      rcases hpoll : srv.getJobs k with msg | jobs
      · -- transient poll error: the loop continues
        have hobs : observed srv jobId k = none := by
          simp [observed, hpoll]
        have hv : waitLoopAux srv jobId timeout (fuel + 1) k =
            waitLoopAux srv jobId timeout fuel (k + 1) := by
          simp [waitLoopAux, hg, hpoll]
        rw [hv, hrec, reachesSuccessFirst_step srv jobId timeout k
          (by simp [hobs]) (by simp [hobs])]
      · rcases hfind : jobs.find? (fun j => j.id == jobId) with _ | j
        · -- job absent from the reply: the loop continues
          have hobs : observed srv jobId k = none := by
            simp [observed, hpoll, hfind]
          have hv : waitLoopAux srv jobId timeout (fuel + 1) k =
              waitLoopAux srv jobId timeout fuel (k + 1) := by
            simp [waitLoopAux, hg, hpoll, hfind]
          rw [hv, hrec, reachesSuccessFirst_step srv jobId timeout k
            (by simp [hobs]) (by simp [hobs])]
        · have hobs : observed srv jobId k = some j.state := by
            simp [observed, hpoll, hfind]
          by_cases hsu : j.state = "SUCCESS"
          · -- terminal SUCCESS: the loop returns true
            have hv : waitLoopAux srv jobId timeout (fuel + 1) k =
                (true, k + 1) := by
              simp [waitLoopAux, hg, hpoll, hfind, hsu]
            rw [hv]
            exact iff_of_true rfl
              ⟨k, le_refl k, hg, by rw [hobs, hsu], by omega⟩
          · by_cases hfa : j.state = "FAILED"
            · -- terminal FAILED: the loop returns false
              have hv : waitLoopAux srv jobId timeout (fuel + 1) k =
                  (false, k + 1) := by
                simp [waitLoopAux, hg, hpoll, hfind, hsu, hfa]
              rw [hv]
              refine iff_of_false (by simp) ?_
              rintro ⟨m, hkm, hwin, hsucc, hmin⟩
              rcases Nat.eq_or_lt_of_le hkm with he | hlt
              · rw [← he, hobs] at hsucc
                exact hsu (by simpa using hsucc)
              · exact (hmin k (le_refl k) hlt).2 (by rw [hobs, hfa])
            · -- non-terminal state: the loop continues
              have hv : waitLoopAux srv jobId timeout (fuel + 1) k =
                  waitLoopAux srv jobId timeout fuel (k + 1) := by
                simp [waitLoopAux, hg, hpoll, hfind, hsu, hfa]
              rw [hv, hrec, reachesSuccessFirst_step srv jobId timeout k
                (by simp [hobs, hsu]) (by simp [hobs, hfa])]
    · have hv : waitLoopAux srv jobId timeout (fuel + 1) k =
          (false, k) := by
        simp [waitLoopAux, hg]
      rw [hv]
      exact iff_of_false (by simp)
        (not_reachesSuccessFirst_of_elapsed srv jobId timeout k (by omega))

/-- C1: `waitForJob` returns true iff the observed state sequence for
the job id reaches `SUCCESS` strictly within the timeout window without
first reaching `FAILED`; it returns false exactly otherwise (i.e. when a
`FAILED` observation or the timeout comes first); and a poll whose
`core.get_jobs` call rejects does not abort the loop — the run simply
continues with the next poll. -/
theorem waitForJob_correct (srv : Server) (jobId : Int) (timeout : Nat)
    (hj : 0 < jobId) :
    (waitForJob srv jobId timeout = .ok true ↔
      ReachesSuccessFirst srv jobId timeout 0) ∧
    (waitForJob srv jobId timeout = .ok false ↔
      ¬ ReachesSuccessFirst srv jobId timeout 0) ∧
    (∀ k msg fuel, 2000 * k < timeout → srv.getJobs k = .pollError msg →
      waitLoopAux srv jobId timeout (fuel + 1) k =
        waitLoopAux srv jobId timeout fuel (k + 1)) := by
  have hno : ¬ jobId ≤ 0 := by omega
  have hiff : (waitForJobRun srv jobId timeout).1 = true ↔
      ReachesSuccessFirst srv jobId timeout 0 :=
    waitLoopAux_true_iff srv jobId timeout (timeout + 1) 0 (by omega)
  refine ⟨?_, ?_, ?_⟩
  · rw [waitForJob, if_neg hno, ← hiff]
    cases hb : (waitForJobRun srv jobId timeout).1 <;> simp [hb]
  · rw [waitForJob, if_neg hno, ← hiff]
    cases hb : (waitForJobRun srv jobId timeout).1 <;> simp [hb]
  · intro k msg fuel hg hpoll
    simp [waitLoopAux, hg, hpoll]

/-- Server used to witness the `waitForJob` theorems: the first poll
errors, the second reports the job `RUNNING`, the third reports
`SUCCESS`. -/
def srvC1 : Server where
  getInstance := fun _ => .error "not found"
  appStop := fun _ => .error "not found"
  appStart := fun _ => .error "not found"
  getJobs := fun k =>
    if k = 0 then .pollError "transient"
    else if k = 1 then .pollJobs [⟨5, "RUNNING"⟩]
    else .pollJobs [⟨5, "SUCCESS"⟩]

theorem waitForJob_correct_witness :
    (0 : Int) < 5 ∧
    ((waitForJob srvC1 5 30000 = .ok true ↔
        ReachesSuccessFirst srvC1 5 30000 0) ∧
      (waitForJob srvC1 5 30000 = .ok false ↔
        ¬ ReachesSuccessFirst srvC1 5 30000 0) ∧
      (∀ k msg fuel, 2000 * k < 30000 →
        srvC1.getJobs k = .pollError msg →
        waitLoopAux srvC1 5 30000 (fuel + 1) k =
          waitLoopAux srvC1 5 30000 fuel (k + 1))) :=
  ⟨by decide, waitForJob_correct srvC1 5 30000 (by decide)⟩

theorem waitLoopAux_count (srv : Server) (jobId : Int) (timeout : Nat) :
    ∀ fuel k,
      k ≤ (waitLoopAux srv jobId timeout fuel k).2 ∧
      ((waitLoopAux srv jobId timeout fuel k).2 = k ∨
        2000 * ((waitLoopAux srv jobId timeout fuel k).2 - 1) < timeout) ∧
      (∀ m, k ≤ m → m < (waitLoopAux srv jobId timeout fuel k).2 →
        2000 * m < timeout) := by
  intro fuel
  induction fuel with
  | zero =>
    intro k
    have hv : waitLoopAux srv jobId timeout 0 k = (false, k) := rfl
    rw [hv]
    refine ⟨le_refl k, Or.inl rfl, fun m h1 h2 => ?_⟩
    have h2' : m < k := h2
    omega
  | succ fuel ih =>
    intro k
    by_cases hg : 2000 * k < timeout
    · have cont : ∀ hv : waitLoopAux srv jobId timeout (fuel + 1) k =
          waitLoopAux srv jobId timeout fuel (k + 1),
          k ≤ (waitLoopAux srv jobId timeout (fuel + 1) k).2 ∧
          ((waitLoopAux srv jobId timeout (fuel + 1) k).2 = k ∨
            2000 * ((waitLoopAux srv jobId timeout (fuel + 1) k).2 - 1) <
              timeout) ∧
          (∀ m, k ≤ m →
            m < (waitLoopAux srv jobId timeout (fuel + 1) k).2 →
            2000 * m < timeout) := by
        intro hv
        obtain ⟨ha, hb, hc⟩ := ih (k + 1)
        rw [hv]
        refine ⟨by omega, by omega, fun m h1 h2 => ?_⟩
        rcases Nat.eq_or_lt_of_le h1 with he | hlt
        · omega
        · exact hc m hlt h2
      have term : ∀ b, ∀ hv : waitLoopAux srv jobId timeout (fuel + 1) k =
          (b, k + 1),
          k ≤ (waitLoopAux srv jobId timeout (fuel + 1) k).2 ∧
          ((waitLoopAux srv jobId timeout (fuel + 1) k).2 = k ∨
            2000 * ((waitLoopAux srv jobId timeout (fuel + 1) k).2 - 1) <
              timeout) ∧
          (∀ m, k ≤ m →
            m < (waitLoopAux srv jobId timeout (fuel + 1) k).2 →
            2000 * m < timeout) := by
        intro b hv
        rw [hv]
        refine ⟨Nat.le_succ k, Or.inr (by omega), fun m h1 h2 => ?_⟩
        have h2' : m < k + 1 := h2
        omega
      rcases hpoll : srv.getJobs k with msg | jobs
      · exact cont (by simp [waitLoopAux, hg, hpoll])
      · rcases hfind : jobs.find? (fun j => j.id == jobId) with _ | j
        · exact cont (by simp [waitLoopAux, hg, hpoll, hfind])
        · by_cases hsu : j.state = "SUCCESS"
          · exact term true (by simp [waitLoopAux, hg, hpoll, hfind, hsu])
          · by_cases hfa : j.state = "FAILED"
            · exact term false
                (by simp [waitLoopAux, hg, hpoll, hfind, hsu, hfa])
            · exact cont
                (by simp [waitLoopAux, hg, hpoll, hfind, hsu, hfa])
    · have hv : waitLoopAux srv jobId timeout (fuel + 1) k =
          (false, k) := by simp [waitLoopAux, hg]
      rw [hv]
      refine ⟨le_refl k, Or.inl rfl, fun m h1 h2 => ?_⟩
      have h2' : m < k := h2
      omega

theorem waitLoopAux_run_succeeds (srv : Server) (jobId : Int)
    (timeout : Nat) :
    ∀ fuel k m, k ≤ m → 2000 * m < timeout →
      observed srv jobId m = some "SUCCESS" →
      (∀ j, k ≤ j → j < m → observed srv jobId j ≠ some "SUCCESS" ∧
        observed srv jobId j ≠ some "FAILED") →
      timeout ≤ 2000 * (k + fuel) →
      waitLoopAux srv jobId timeout fuel k = (true, m + 1) := by
  intro fuel
  induction fuel with
  | zero =>
    intro k m hkm hwin _ _ hfuel
    exfalso
    have : 2000 * k ≤ 2000 * m := Nat.mul_le_mul_left _ hkm
    omega
  | succ fuel ih =>
    intro k m hkm hwin hsucc hmin hfuel
    have hg : 2000 * k < timeout := by
      have : 2000 * k ≤ 2000 * m := Nat.mul_le_mul_left _ hkm
      omega
    rcases Nat.eq_or_lt_of_le hkm with he | hlt
    · -- this poll observes SUCCESS
      subst he
      rcases hpoll : srv.getJobs k with msg | jobs
      · simp [observed, hpoll] at hsucc
      · rcases hfind : jobs.find? (fun j => j.id == jobId) with _ | j
        · simp [observed, hpoll, hfind] at hsucc
        · have hsu : j.state = "SUCCESS" := by
            simpa [observed, hpoll, hfind] using hsucc
          simp [waitLoopAux, hg, hpoll, hfind, hsu]
    · -- this poll observes a non-terminal condition and continues
      have hob := hmin k (le_refl k) hlt
      have hrec := ih (k + 1) m hlt hwin hsucc
        (fun j h1 h2 => hmin j (by omega) h2) (by omega)
      rcases hpoll : srv.getJobs k with msg | jobs
      · rw [show waitLoopAux srv jobId timeout (fuel + 1) k =
            waitLoopAux srv jobId timeout fuel (k + 1) from
          by simp [waitLoopAux, hg, hpoll]]
        exact hrec
      · rcases hfind : jobs.find? (fun j => j.id == jobId) with _ | j
        · rw [show waitLoopAux srv jobId timeout (fuel + 1) k =
              waitLoopAux srv jobId timeout fuel (k + 1) from
            by simp [waitLoopAux, hg, hpoll, hfind]]
          exact hrec
        · have hobs : observed srv jobId k = some j.state := by
            simp [observed, hpoll, hfind]
          have hsu : j.state ≠ "SUCCESS" := by
            intro he; exact hob.1 (by rw [hobs, he])
          have hfa : j.state ≠ "FAILED" := by
            intro he; exact hob.2 (by rw [hobs, he])
          rw [show waitLoopAux srv jobId timeout (fuel + 1) k =
              waitLoopAux srv jobId timeout fuel (k + 1) from
            by simp [waitLoopAux, hg, hpoll, hfind, hsu, hfa]]
          exact hrec

/-- C8: `waitForJob` terminates.  The number of polls a run issues is
bounded by the timeout window (`2000 * polls < timeout + 2000`, i.e. at
most `⌈timeout / 2000⌉` polls), every poll is issued only while the
elapsed time (`2000` ms of sleep per completed iteration, the source's
fixed — not exponential — interval) is strictly below the timeout, the
elapsed time between consecutive polls is exactly 2000 ms, the run
returns a boolean, and on any channel that observes a non-terminal
condition on the first two polls and `SUCCESS` on the third,
`waitForJob(jobId, 30000)` (30000 ms being the source's default
timeout) returns true after exactly 3 polls. -/
theorem waitForJob_terminates (srv : Server) (jobId : Int)
    (timeout : Nat) (hj : 0 < jobId) (ht : 0 < timeout) :
    2000 * (waitForJobRun srv jobId timeout).2 < timeout + 2000 ∧
    (∀ k, k < (waitForJobRun srv jobId timeout).2 →
      pollElapsed k < timeout) ∧
    (∀ k, pollElapsed (k + 1) = pollElapsed k + 2000) ∧
    (∃ b, waitForJob srv jobId timeout = .ok b) ∧
    (∀ srv' : Server,
      (∀ j, j < 2 → observed srv' jobId j ≠ some "SUCCESS" ∧
        observed srv' jobId j ≠ some "FAILED") →
      observed srv' jobId 2 = some "SUCCESS" →
      waitForJobRun srv' jobId defaultTimeout = (true, 3) ∧
      waitForJob srv' jobId defaultTimeout = .ok true) := by
  obtain ⟨ha, hb, hc⟩ :=
    waitLoopAux_count srv jobId timeout (timeout + 1) 0
  have hno : ¬ jobId ≤ 0 := by omega
  refine ⟨?_, ?_, fun k => ?_, ?_, fun srv' hrun hsucc => ?_⟩
  · rcases hb with hb | hb
    · rw [waitForJobRun, hb]; omega
    · rw [waitForJobRun]
      omega
  · intro k hk
    rw [waitForJobRun] at hk
    exact hc k (Nat.zero_le k) hk
  · simp only [pollElapsed]; ring
  · exact ⟨(waitForJobRun srv jobId timeout).1, by rw [waitForJob, if_neg hno]⟩
  · have hrun3 : waitLoopAux srv' jobId defaultTimeout
        (defaultTimeout + 1) 0 = (true, 3) :=
      waitLoopAux_run_succeeds srv' jobId defaultTimeout
        (defaultTimeout + 1) 0 2 (by omega) (by decide) hsucc
        (fun j h1 h2 => hrun j h2) (by decide)
    refine ⟨hrun3, ?_⟩
    rw [waitForJob, if_neg hno, waitForJobRun, hrun3]

theorem waitForJob_terminates_witness :
    (0 : Int) < 5 ∧ (0 : Nat) < 30000 ∧
    (2000 * (waitForJobRun srvC1 5 30000).2 < 30000 + 2000 ∧
      (∀ k, k < (waitForJobRun srvC1 5 30000).2 →
        pollElapsed k < 30000) ∧
      (∀ k, pollElapsed (k + 1) = pollElapsed k + 2000) ∧
      (∃ b, waitForJob srvC1 5 30000 = .ok b) ∧
      (∀ srv' : Server,
        (∀ j, j < 2 → observed srv' 5 j ≠ some "SUCCESS" ∧
          observed srv' 5 j ≠ some "FAILED") →
        observed srv' 5 2 = some "SUCCESS" →
        waitForJobRun srv' 5 defaultTimeout = (true, 3) ∧
        waitForJob srv' 5 defaultTimeout = .ok true)) :=
  ⟨by decide, by decide,
    waitForJob_terminates srvC1 5 30000 (by decide) (by decide)⟩

/-! ## The four operations (src/truenas-client.js, lines 295-516)

Each operation is modelled as a pure function of the server oracle,
returning its result (`Except`, with the thrown message as the error
payload) paired with the ordered list of remote calls it issued. -/

/-- The `App '<name>' not found. Please check the app name in TrueNAS`
message thrown by the mutating operations. -/
def notFoundMsg (appName : String) : String :=
  "App " ++ sq ++ appName ++ sq ++
    " not found. Please check the app name in TrueNAS"

/-- The permission-denied message thrown by `stopApp`/`startApp`. -/
def permDeniedMsg : String :=
  "Permission denied. Please ensure your API key has APPS_WRITE permissions"

/-- The message `stopApp` throws when `waitForJob` reports failure. -/
def stopFailedMsg : String :=
  "Stop operation failed or timed out. The app may still be running."

/-- The message `startApp` throws when `waitForJob` reports failure. -/
def startFailedMsg : String :=
  "Start operation failed or timed out. The app may not have started properly."

/-- `getAppStatus(appName)` (lines 295-318): validates the name, calls
`app.get_instance` and returns the descriptor's state; any error from
the call is logged and converted to the unknown sentinel `null`
(modelled as `none`). -/
def getAppStatus (srv : Server) (appName : String) :
    Except String (Option String) × List RemoteCall :=
  if appName = "" then
    (.error "App name is required and must be a string", [])
  else if trimEmpty appName = true then
    (.error "App name cannot be empty", [])
  else
    match srv.getInstance appName with
    | .ok app => (.ok (some app.state), [.getInstance appName])
    | .error _ => (.ok none, [.getInstance appName])

/-- The `catch` block of `stopApp` (lines 411-423), applied to the
message of any error thrown inside its `try`: `not found` and
`permission` errors are rewritten and rethrown, `already stopped` is a
success no-op yielding no job id, everything else is rethrown as is. -/
def stopCatch (appName msg : String) : Except String (Option Int) :=
  if strIncludes msg "not found" then .error (notFoundMsg appName)
  else if strIncludes msg "permission" then .error permDeniedMsg
  else if strIncludes msg "already stopped" then .ok none
  else .error msg

/-- The `catch` block of `startApp` (lines 461-473); as `stopCatch` but
the no-op case is `already running`. -/
def startCatch (appName msg : String) : Except String (Option Int) :=
  if strIncludes msg "not found" then .error (notFoundMsg appName)
  else if strIncludes msg "permission" then .error permDeniedMsg
  else if strIncludes msg "already running" then .ok none
  else .error msg

/-- `stopApp(appName)` (lines 382-424): validate the name, check the app
exists via `getAppStatus` (throwing the not-found message if the
sentinel comes back), then inside a `try`: call `app.stop` for a job id,
wait for the job with the default timeout, throw `stopFailedMsg` if the
wait reports failure, otherwise return the job id.  Every error thrown
inside the `try` goes through `stopCatch`. -/
def stopApp (srv : Server) (appName : String) :
    Except String (Option Int) × List RemoteCall :=
  if appName = "" then
    (.error "App name is required and must be a string", [])
  else if trimEmpty appName = true then
    (.error "App name cannot be empty", [])
  else
    match (getAppStatus srv appName).1 with
    | .error e => (.error e, (getAppStatus srv appName).2)
    | .ok none =>
      (.error (notFoundMsg appName), (getAppStatus srv appName).2)
    | .ok (some _) =>
      match srv.appStop appName with
      | .error raw =>
        (stopCatch appName (methodErr raw),
          (getAppStatus srv appName).2 ++ [.appStop appName])
      | .ok jobId =>
        match waitForJob srv jobId defaultTimeout with
        | .error e =>
          (stopCatch appName e,
            (getAppStatus srv appName).2 ++ [.appStop appName])
        | .ok true =>
          (.ok (some jobId),
            (getAppStatus srv appName).2 ++ [.appStop appName] ++
              waitTrace srv jobId defaultTimeout)
        | .ok false =>
          (stopCatch appName stopFailedMsg,
            (getAppStatus srv appName).2 ++ [.appStop appName] ++
              waitTrace srv jobId defaultTimeout)

/-- `startApp(appName)` (lines 432-474): the mirror image of `stopApp`
with `app.start`, `startFailedMsg` and `startCatch`. -/
def startApp (srv : Server) (appName : String) :
    Except String (Option Int) × List RemoteCall :=
  if appName = "" then
    (.error "App name is required and must be a string", [])
  else if trimEmpty appName = true then
    (.error "App name cannot be empty", [])
  else
    match (getAppStatus srv appName).1 with
    | .error e => (.error e, (getAppStatus srv appName).2)
    | .ok none =>
      (.error (notFoundMsg appName), (getAppStatus srv appName).2)
    | .ok (some _) =>
      match srv.appStart appName with
      | .error raw =>
        (startCatch appName (methodErr raw),
          (getAppStatus srv appName).2 ++ [.appStart appName])
      | .ok jobId =>
        match waitForJob srv jobId defaultTimeout with
        | .error e =>
          (startCatch appName e,
            (getAppStatus srv appName).2 ++ [.appStart appName])
        | .ok true =>
          (.ok (some jobId),
            (getAppStatus srv appName).2 ++ [.appStart appName] ++
              waitTrace srv jobId defaultTimeout)
        | .ok false =>
          (startCatch appName startFailedMsg,
            (getAppStatus srv appName).2 ++ [.appStart appName] ++
              waitTrace srv jobId defaultTimeout)

/-- `restartApp(appName)` (lines 482-516): validate the name, check the
app exists, `stopApp`, re-query the status (informational only — the
result is logged and otherwise unused), `startApp`, and return the
result of a final status query.  Errors of any phase propagate; nothing
is rolled back. -/
def restartApp (srv : Server) (appName : String) :
    Except String (Option String) × List RemoteCall :=
  if appName = "" then
    (.error "App name is required and must be a string", [])
  else if trimEmpty appName = true then
    (.error "App name cannot be empty", [])
  else
    match (getAppStatus srv appName).1 with
    | .error e => (.error e, (getAppStatus srv appName).2)
    | .ok none =>
      (.error (notFoundMsg appName), (getAppStatus srv appName).2)
    | .ok (some _) =>
      match (stopApp srv appName).1 with
      | .error e =>
        (.error e, (getAppStatus srv appName).2 ++ (stopApp srv appName).2)
      | .ok _ =>
        match (startApp srv appName).1 with
        | .error e =>
          (.error e,
            (getAppStatus srv appName).2 ++ (stopApp srv appName).2 ++
              (getAppStatus srv appName).2 ++ (startApp srv appName).2)
        | .ok _ =>
          ((getAppStatus srv appName).1,
            (getAppStatus srv appName).2 ++ (stopApp srv appName).2 ++
              (getAppStatus srv appName).2 ++ (startApp srv appName).2 ++
              (getAppStatus srv appName).2)

theorem ne_empty_of_trim {s : String} (h : trimEmpty s = false) :
    s ≠ "" := by
  intro he
  subst he
  exact absurd h (by decide)

/-- C3: on a name whose status query yields the unknown sentinel (the
`app.get_instance` call errors, e.g. app not found), `stopApp` and
`startApp` both fail with the descriptive not-found message, and their
traces contain no `app.stop` / `app.start` call. -/
theorem stopApp_startApp_not_found (srv : Server) (appName e : String)
    (hname : trimEmpty appName = false)
    (hinst : srv.getInstance appName = .error e) :
    (stopApp srv appName).1 = .error (notFoundMsg appName) ∧
    (∀ n, RemoteCall.appStop n ∉ (stopApp srv appName).2) ∧
    (startApp srv appName).1 = .error (notFoundMsg appName) ∧
    (∀ n, RemoteCall.appStart n ∉ (startApp srv appName).2) := by
  have hne : appName ≠ "" := ne_empty_of_trim hname
  refine ⟨?_, ?_, ?_, ?_⟩ <;>
    simp [stopApp, startApp, getAppStatus, hne, hname, hinst]

/-- Server used to witness the not-found theorems: every app lookup
reports not found. -/
def srvC3 : Server where
  getInstance := fun _ => .error "[ENOENT] app not found"
  appStop := fun _ => .ok 1
  appStart := fun _ => .ok 1
  getJobs := fun _ => .pollJobs []

theorem stopApp_startApp_not_found_witness :
    trimEmpty "plex" = false ∧
    srvC3.getInstance "plex" = .error "[ENOENT] app not found" ∧
    ((stopApp srvC3 "plex").1 = .error (notFoundMsg "plex") ∧
      (∀ n, RemoteCall.appStop n ∉ (stopApp srvC3 "plex").2) ∧
      (startApp srvC3 "plex").1 = .error (notFoundMsg "plex") ∧
      (∀ n, RemoteCall.appStart n ∉ (startApp srvC3 "plex").2)) :=
  ⟨by decide, rfl,
    stopApp_startApp_not_found srvC3 "plex" "[ENOENT] app not found"
      (by decide) rfl⟩

/-- C4: for a name that passes the accessor's own validation,
`getAppStatus` returns the descriptor's state when `app.get_instance`
resolves and the unknown sentinel (`none`) when it rejects for any
reason — it never throws. -/
theorem getAppStatus_never_throws (srv : Server) (appName : String)
    (hname : trimEmpty appName = false) :
    (∀ app, srv.getInstance appName = .ok app →
      (getAppStatus srv appName).1 = .ok (some app.state)) ∧
    (∀ e, srv.getInstance appName = .error e →
      (getAppStatus srv appName).1 = .ok none) ∧
    (∀ msg, (getAppStatus srv appName).1 ≠ .error msg) := by
  have hne : appName ≠ "" := ne_empty_of_trim hname
  refine ⟨fun app happ => ?_, fun e he => ?_, fun msg hmsg => ?_⟩
  · simp [getAppStatus, hne, hname, happ]
  · simp [getAppStatus, hne, hname, he]
  · rcases hinst : srv.getInstance appName with e0 | app0 <;>
      simp [getAppStatus, hne, hname, hinst] at hmsg

theorem getAppStatus_never_throws_witness :
    trimEmpty "plex" = false ∧
    ((∀ app, srvC3.getInstance "plex" = .ok app →
        (getAppStatus srvC3 "plex").1 = .ok (some app.state)) ∧
      (∀ e, srvC3.getInstance "plex" = .error e →
        (getAppStatus srvC3 "plex").1 = .ok none) ∧
      (∀ msg, (getAppStatus srvC3 "plex").1 ≠ .error msg)) :=
  ⟨by decide, getAppStatus_never_throws srvC3 "plex" (by decide)⟩

/-! ## C5: the `already stopped` / `already running` idempotency idiom -/

/-- Server whose `app.stop` / `app.start` errors mention both the
idempotency phrase and `not found`: the catch block's precedence order
(`not found` is tested first) then wins over the no-op case. -/
def srvC5 : Server where
  getInstance := fun _ => .ok ⟨"RUNNING"⟩
  appStop := fun _ => .error "app already stopped; endpoint not found"
  appStart := fun _ => .error "app already running; endpoint not found"
  getJobs := fun _ => .pollJobs []

/-- C5 counterexample: an `app.stop` error whose message contains
`already stopped` but also contains `not found` is NOT treated as a
success no-op — `stopApp` rewrites it to the not-found error and throws,
because the catch block tests `not found` before `already stopped`.
The same precedence applies to `startApp`. -/
theorem stopApp_already_stopped_counterexample :
    strIncludes (methodErr "app already stopped; endpoint not found")
      "already stopped" = true ∧
    srvC5.appStop "plex" =
      .error "app already stopped; endpoint not found" ∧
    (stopApp srvC5 "plex").1 ≠ .ok none ∧
    (stopApp srvC5 "plex").1 = .error (notFoundMsg "plex") := by
  refine ⟨by decide, rfl, ?_, ?_⟩ <;> decide

/-- C5 (amended): if `app.stop` (resp. `app.start`) rejects with a
message that contains `already stopped` (resp. `already running`) and
contains neither `not found` nor `permission`, the operation succeeds as
a no-op yielding no job id (`none`); a message containing `not found`
(or otherwise `permission`) is rewritten to the corresponding
descriptive error and propagates; every other method error propagates
unchanged. -/
theorem stopApp_startApp_idempotent (srv : Server) (appName : String)
    (app : AppInfo) (raw : String)
    (hname : trimEmpty appName = false)
    (hinst : srv.getInstance appName = .ok app) :
    (srv.appStop appName = .error raw →
      (strIncludes (methodErr raw) "not found" = false →
        strIncludes (methodErr raw) "permission" = false →
        strIncludes (methodErr raw) "already stopped" = true →
        (stopApp srv appName).1 = .ok none) ∧
      (strIncludes (methodErr raw) "not found" = true →
        (stopApp srv appName).1 = .error (notFoundMsg appName)) ∧
      (strIncludes (methodErr raw) "not found" = false →
        strIncludes (methodErr raw) "permission" = true →
        (stopApp srv appName).1 = .error permDeniedMsg) ∧
      (strIncludes (methodErr raw) "not found" = false →
        strIncludes (methodErr raw) "permission" = false →
        strIncludes (methodErr raw) "already stopped" = false →
        (stopApp srv appName).1 = .error (methodErr raw))) ∧
    (srv.appStart appName = .error raw →
      (strIncludes (methodErr raw) "not found" = false →
        strIncludes (methodErr raw) "permission" = false →
        strIncludes (methodErr raw) "already running" = true →
        (startApp srv appName).1 = .ok none) ∧
      (strIncludes (methodErr raw) "not found" = true →
        (startApp srv appName).1 = .error (notFoundMsg appName)) ∧
      (strIncludes (methodErr raw) "not found" = false →
        strIncludes (methodErr raw) "permission" = true →
        (startApp srv appName).1 = .error permDeniedMsg) ∧
      (strIncludes (methodErr raw) "not found" = false →
        strIncludes (methodErr raw) "permission" = false →
        strIncludes (methodErr raw) "already running" = false →
        (startApp srv appName).1 = .error (methodErr raw))) := by
  have hne : appName ≠ "" := ne_empty_of_trim hname
  constructor
  · intro hstop
    refine ⟨fun h1 h2 h3 => ?_, fun h1 => ?_, fun h1 h2 => ?_,
      fun h1 h2 h3 => ?_⟩
    · simp [stopApp, getAppStatus, stopCatch, hne, hname, hinst, hstop,
        h1, h2, h3]
    · simp [stopApp, getAppStatus, stopCatch, hne, hname, hinst, hstop, h1]
    · simp [stopApp, getAppStatus, stopCatch, hne, hname, hinst, hstop,
        h1, h2]
    · simp [stopApp, getAppStatus, stopCatch, hne, hname, hinst, hstop,
        h1, h2, h3]
  · intro hstart
    refine ⟨fun h1 h2 h3 => ?_, fun h1 => ?_, fun h1 h2 => ?_,
      fun h1 h2 h3 => ?_⟩
    · simp [startApp, getAppStatus, startCatch, hne, hname, hinst, hstart,
        h1, h2, h3]
    · simp [startApp, getAppStatus, startCatch, hne, hname, hinst, hstart,
        h1]
    · simp [startApp, getAppStatus, startCatch, hne, hname, hinst, hstart,
        h1, h2]
    · simp [startApp, getAppStatus, startCatch, hne, hname, hinst, hstart,
        h1, h2, h3]

/-- Server whose `app.stop` / `app.start` errors carry only the
idempotency phrase; used to witness the amended C5 theorem. -/
def srvC5w : Server where
  getInstance := fun _ => .ok ⟨"RUNNING"⟩
  appStop := fun _ => .error "this app is already stopped"
  appStart := fun _ => .error "this app is already running"
  getJobs := fun _ => .pollJobs []

theorem stopApp_startApp_idempotent_witness :
    trimEmpty "plex" = false ∧
    srvC5w.getInstance "plex" = .ok ⟨"RUNNING"⟩ ∧
    srvC5w.appStop "plex" = .error "this app is already stopped" ∧
    strIncludes (methodErr "this app is already stopped")
      "already stopped" = true ∧
    (stopApp srvC5w "plex").1 = .ok none ∧
    (startApp srvC5w "plex").1 = .ok none := by
  refine ⟨by decide, rfl, rfl, by decide, ?_, ?_⟩
  · exact ((stopApp_startApp_idempotent srvC5w "plex" ⟨"RUNNING"⟩
      "this app is already stopped" (by decide) rfl).1 rfl).1
      (by decide) (by decide) (by decide)
  · exact ((stopApp_startApp_idempotent srvC5w "plex" ⟨"RUNNING"⟩
      "this app is already running" (by decide) rfl).2 rfl).1
      (by decide) (by decide) (by decide)

/-! ## C6: `restartApp` sequencing -/

/-- C6: under a valid name, an app that exists, and a stop phase that
succeeds, `restartApp` runs existence check, stop, informational status
re-check, start, final status query — in that order, as witnessed by the
concatenated call trace — and returns the final status query's result;
and when the start phase fails, the start error propagates, the trace
ends with the start phase (no final query), and no compensating
`app.stop`/`app.start` call is issued after it. -/
theorem restartApp_sequence (srv : Server) (appName : String)
    (hname : trimEmpty appName = false) (st : String)
    (hex : (getAppStatus srv appName).1 = .ok (some st)) (j : Option Int)
    (hstop : (stopApp srv appName).1 = .ok j) :
    (∀ j2, (startApp srv appName).1 = .ok j2 →
      restartApp srv appName =
        ((getAppStatus srv appName).1,
          (getAppStatus srv appName).2 ++ (stopApp srv appName).2 ++
            (getAppStatus srv appName).2 ++ (startApp srv appName).2 ++
            (getAppStatus srv appName).2)) ∧
    (∀ e, (startApp srv appName).1 = .error e →
      restartApp srv appName =
        (.error e,
          (getAppStatus srv appName).2 ++ (stopApp srv appName).2 ++
            (getAppStatus srv appName).2 ++ (startApp srv appName).2)) := by
  have hne : appName ≠ "" := ne_empty_of_trim hname
  constructor
  · intro j2 hstart
    simp [restartApp, hne, hname, hex, hstop, hstart]
  · intro e hstart
    simp [restartApp, hne, hname, hex, hstop, hstart]

/-- Server on which every phase of a restart succeeds: stop is job 7,
start is job 8, and the single poll sees both jobs in `SUCCESS`. -/
def srvC6 : Server where
  getInstance := fun _ => .ok ⟨"RUNNING"⟩
  appStop := fun _ => .ok 7
  appStart := fun _ => .ok 8
  getJobs := fun _ => .pollJobs [⟨7, "SUCCESS"⟩, ⟨8, "SUCCESS"⟩]

theorem restartApp_sequence_witness :
    restartApp srvC6 "plex" =
      ((getAppStatus srvC6 "plex").1,
        (getAppStatus srvC6 "plex").2 ++ (stopApp srvC6 "plex").2 ++
          (getAppStatus srvC6 "plex").2 ++ (startApp srvC6 "plex").2 ++
          (getAppStatus srvC6 "plex").2) :=
  (restartApp_sequence srvC6 "plex" (by decide) "RUNNING" (by decide)
    (some 7) (by decide)).1 (some 8) (by decide)

/-! ## `connect` / authentication (src/truenas-client.js, lines 150-254)

`connect()` opens the socket, sends the `{msg:'connect', version:'1',
support:['1']}` negotiation, and on a `connected` reply sends the single
`auth.login_with_api_key` call (message id 1 of the fresh session).  A
response with an `error` field rejects the whole `connect()` with a
message classified from `error.reason`; nothing is retried. -/

/-- The channel's replies during the handshake: the `msg` field of the
response to the negotiation message, and the `error.reason` carried by
the (id-matching) response to the authentication call (`none` when the
response has no error field). -/
structure Channel where
  connectReply : String
  authError : Option String

/-- A message the client sends on the socket. -/
inductive SentMsg where
  | connectMsg
  | methodCall (id : Nat) (method : String)
deriving DecidableEq, Repr

/-- True for correlated calls other than the authentication call. -/
def SentMsg.isOperational : SentMsg → Bool
  | .connectMsg => false
  | .methodCall _ meth => !(meth == "auth.login_with_api_key")

/-- True exactly for the authentication call. -/
def SentMsg.isAuthCall : SentMsg → Bool
  | .connectMsg => false
  | .methodCall _ meth => meth == "auth.login_with_api_key"

/-- The `authenticateWithAPI` failure classification (lines 238-246):
the rejection message chosen from the server's `error.reason`. -/
def classifyAuthError (reason : String) : String :=
  if strIncludes reason "invalid" || strIncludes reason "wrong" then
    "Authentication failed: Invalid API key. Please check your TrueNAS API key and ensure it has the required permissions (APPS_WRITE role)"
  else if strIncludes reason "expired" then
    "Authentication failed: API key has expired. Please generate a new API key in TrueNAS"
  else "Authentication failed: " ++ reason

/-- `authenticateWithAPI()` outcome given the auth response. -/
def authenticateWithAPI (ch : Channel) : Except String Unit :=
  match ch.authError with
  | some reason => .error (classifyAuthError reason)
  | none => .ok ()

/-- `connect()`: negotiation, then (on `connected`) the single
authentication call; the result pairs the outcome with the messages sent
on the channel, in order. -/
def connect (ch : Channel) : Except String Unit × List SentMsg :=
  if ch.connectReply = "connected" then
    (authenticateWithAPI ch,
      [.connectMsg, .methodCall 1 "auth.login_with_api_key"])
  else (.error "WebSocket connection failed", [.connectMsg])

/-- The drivers (`index.js`, `test-truenas.js`) run exactly one
operation after `await client.connect()`; when `connect` rejects, the
operation is never reached.  `sessionOpCalls` is the list of operational
remote calls the whole session issues. -/
inductive Action where
  | status
  | stop
  | start
  | restart
deriving DecidableEq, Repr

def sessionOpCalls (ch : Channel) (srv : Server) (act : Action)
    (appName : String) : List RemoteCall :=
  match (connect ch).1 with
  | .error _ => []
  | .ok _ =>
    match act with
    | .status => (getAppStatus srv appName).2
    | .stop => (stopApp srv appName).2
    | .start => (startApp srv appName).2
    | .restart => (restartApp srv appName).2

/-- C7: when the `auth.login_with_api_key` response carries an error,
`connect()` rejects with the failure classified by the reason's content
(invalid/wrong, expired, other); exactly one authentication call is sent
(no automatic retry), `connect` itself sends no operational call, and
the session issues no operational remote call at all. -/
theorem connect_auth_error (ch : Channel) (reason : String)
    (hc : ch.connectReply = "connected")
    (he : ch.authError = some reason) :
    (connect ch).1 = .error (classifyAuthError reason) ∧
    ((strIncludes reason "invalid" = true ∨
        strIncludes reason "wrong" = true) →
      classifyAuthError reason =
        "Authentication failed: Invalid API key. Please check your TrueNAS API key and ensure it has the required permissions (APPS_WRITE role)") ∧
    (strIncludes reason "invalid" = false →
      strIncludes reason "wrong" = false →
      strIncludes reason "expired" = true →
      classifyAuthError reason =
        "Authentication failed: API key has expired. Please generate a new API key in TrueNAS") ∧
    (strIncludes reason "invalid" = false →
      strIncludes reason "wrong" = false →
      strIncludes reason "expired" = false →
      classifyAuthError reason = "Authentication failed: " ++ reason) ∧
    ((connect ch).2.countP (fun m => m.isAuthCall) = 1) ∧
    (∀ m ∈ (connect ch).2, m.isOperational = false) ∧
    (∀ srv act appName, sessionOpCalls ch srv act appName = []) := by
  have h1 : (connect ch).1 = .error (classifyAuthError reason) := by
    simp [connect, hc, authenticateWithAPI, he]
  refine ⟨h1, ?_, ?_, ?_, ?_, ?_, ?_⟩
  · rintro (h | h) <;> simp [classifyAuthError, h]
  · intro ha hb hcv
    simp [classifyAuthError, ha, hb, hcv]
  · intro ha hb hcv
    simp [classifyAuthError, ha, hb, hcv]
  · simp [connect, hc, SentMsg.isAuthCall]
  · simp [connect, hc, SentMsg.isOperational]
  · intro srv act appName
    simp [sessionOpCalls, h1]

/-- Channel used to witness C7: negotiation succeeds, authentication
response carries an `invalid` error. -/
def chC7 : Channel where
  connectReply := "connected"
  authError := some "invalid API key token"

theorem connect_auth_error_witness :
    chC7.connectReply = "connected" ∧
    chC7.authError = some "invalid API key token" ∧
    ((connect chC7).1 =
        .error (classifyAuthError "invalid API key token") ∧
      (∀ m ∈ (connect chC7).2, m.isOperational = false) ∧
      (∀ srv act appName, sessionOpCalls chC7 srv act appName = [])) := by
  have h := connect_auth_error chC7 "invalid API key token" rfl rfl
  exact ⟨rfl, rfl, h.1, h.2.2.2.2.2.1, h.2.2.2.2.2.2⟩

/-! ## Constructor validation (src/truenas-client.js, lines 111-143) -/

/-- The `.+` tail of the URL regex: at least one character follows the
scheme and (as the regex dot) it is not a line terminator. -/
def firstCharOk : List Char → Bool
  | [] => false
  | c :: _ =>
    !(c == Char.ofNat 10) && !(c == Char.ofNat 13) &&
      !(c == Char.ofNat 8232) && !(c == Char.ofNat 8233)

/-- The constructor's URL test `/^https?:\/\/.+/`. -/
def matchesHttpUrl (url : String) : Bool :=
  (strStarts url "https://" && firstCharOk (url.data.drop 8)) ||
    (strStarts url "http://" && firstCharOk (url.data.drop 7))

/-- The client state set up by the constructor: `this.url` (the
websocket URL), `this.apiKey`, and `options.noSslVerify`
(`options.noSslVerify === true`, defaulting to false). -/
structure ClientConfig where
  url : String
  apiKey : String
  noSslVerify : Bool
deriving DecidableEq, Repr

/-- The `rejectUnauthorized` flag handed to the TLS agent on `connect`:
`!this.options.noSslVerify` — certificate verification is on unless
explicitly disabled. -/
def rejectUnauthorized (cfg : ClientConfig) : Bool := !cfg.noSslVerify

/-- The `TrueNASClient` constructor: URL and API-key validation, then
`this.url = url.replace('http', 'ws') + '/websocket'`.  The option
argument is `none` when the caller passes no `noSslVerify` entry. -/
def mkClient (url apiKey : String) (noSslVerify : Option Bool) :
    Except String ClientConfig :=
  if url = "" then
    .error "TrueNAS URL is required and must be a string"
  else if matchesHttpUrl url = false then
    .error "TrueNAS URL must be a valid HTTP/HTTPS URL (e.g., https://truenas.local)"
  else if apiKey = "" then
    .error "API key is required and must be a string"
  else if apiKey.length < 10 then
    .error "API key appears to be too short. Please check your TrueNAS API key"
  else
    .ok { url := replaceFirst url "http" "ws" ++ "/websocket"
          apiKey := apiKey
          noSslVerify := noSslVerify == some true }

theorem string_data_append (a b : String) :
    (a ++ b).data = a.data ++ b.data := rfl

/-- C9: constructing a client with a malformed URL or an empty/short
credential fails fast (the constructor is pure — no network I/O exists
before `connect`); on valid inputs the address is rewritten to the
websocket scheme (`http://` to `ws://`, `https://` to `wss://`, plus the
`/websocket` path) and certificate verification defaults to enabled. -/
theorem constructor_validation (url apiKey : String)
    (opts : Option Bool) :
    ((url = "" ∨ matchesHttpUrl url = false ∨ apiKey = "" ∨
        apiKey.length < 10) →
      ∃ e, mkClient url apiKey opts = .error e) ∧
    (matchesHttpUrl url = true → apiKey ≠ "" → ¬ apiKey.length < 10 →
      ∃ cfg, mkClient url apiKey opts = .ok cfg ∧
        cfg.url = replaceFirst url "http" "ws" ++ "/websocket" ∧
        (strStarts url "http://" = true →
          strStarts cfg.url "ws://" = true) ∧
        (strStarts url "https://" = true →
          strStarts cfg.url "wss://" = true) ∧
        (opts = none →
          cfg.noSslVerify = false ∧ rejectUnauthorized cfg = true)) := by
  constructor
  · intro hbad
    by_cases h1 : url = ""
    · exact ⟨"TrueNAS URL is required and must be a string",
        by simp [mkClient, h1]⟩
    · by_cases h2 : matchesHttpUrl url = false
      · exact ⟨"TrueNAS URL must be a valid HTTP/HTTPS URL (e.g., https://truenas.local)",
          by simp [mkClient, h1, h2]⟩
      · have h2' : matchesHttpUrl url = true := by
          cases hm : matchesHttpUrl url
          · exact absurd hm h2
          · rfl
        by_cases h3 : apiKey = ""
        · exact ⟨"API key is required and must be a string",
            by simp [mkClient, h1, h2', h3]⟩
        · by_cases h4 : apiKey.length < 10
          · exact ⟨"API key appears to be too short. Please check your TrueNAS API key",
              by simp [mkClient, h1, h2', h3, h4]⟩
          · rcases hbad with h | h | h | h <;> simp_all
  · intro hm hk hlen
    have h1 : url ≠ "" := by
      intro he
      subst he
      exact absurd hm (by decide)
    refine ⟨{ url := replaceFirst url "http" "ws" ++ "/websocket"
              apiKey := apiKey
              noSslVerify := opts == some true },
      by simp [mkClient, h1, hm, hk, hlen], rfl, ?_, ?_, ?_⟩
    · intro hs
      have hs' : listStarts ("http://" : String).data url.data = true := hs
      obtain ⟨t, ht⟩ := (listStarts_iff _ _).mp hs'
      have htd : url.data = 'h' :: 't' :: 't' :: 'p' :: ':' :: '/' :: '/' :: t := ht
      have hrep : (replaceFirst url "http" "ws").data =
          'w' :: 's' :: ':' :: '/' :: '/' :: t := by
        show replaceFirstL ("http" : String).data ("ws" : String).data
          url.data = _
        rw [htd]
        rfl
      show listStarts ("ws://" : String).data
        (replaceFirst url "http" "ws" ++ "/websocket").data = true
      rw [string_data_append, hrep]
      rfl
    · intro hs
      have hs' : listStarts ("https://" : String).data url.data = true := hs
      obtain ⟨t, ht⟩ := (listStarts_iff _ _).mp hs'
      have htd : url.data =
          'h' :: 't' :: 't' :: 'p' :: 's' :: ':' :: '/' :: '/' :: t := ht
      have hrep : (replaceFirst url "http" "ws").data =
          'w' :: 's' :: 's' :: ':' :: '/' :: '/' :: t := by
        show replaceFirstL ("http" : String).data ("ws" : String).data
          url.data = _
        rw [htd]
        rfl
      show listStarts ("wss://" : String).data
        (replaceFirst url "http" "ws" ++ "/websocket").data = true
      rw [string_data_append, hrep]
      rfl
    · intro ho
      subst ho
      exact ⟨rfl, rfl⟩

theorem constructor_validation_witness :
    (∃ e, mkClient "ftp://host" "abcdefghij" none = .error e) ∧
    (∃ cfg, mkClient "https://truenas.local" "abcdefghij" none =
        .ok cfg ∧
      strStarts cfg.url "wss://" = true ∧ cfg.noSslVerify = false) := by
  constructor
  · exact (constructor_validation "ftp://host" "abcdefghij" none).1
      (Or.inr (Or.inl (by decide)))
  · obtain ⟨cfg, hok, hurl, hws, hwss, hdef⟩ :=
      (constructor_validation "https://truenas.local" "abcdefghij"
        none).2 (by decide) (by decide) (by decide)
    exact ⟨cfg, hok, hwss (by decide), (hdef rfl).1⟩

/-! ## Message-id allocation and response correlation
(src/truenas-client.js, lines 224-288)

`this.messageId` starts at 0 in the constructor and every correlated
call — the authentication call (`id: ++this.messageId`) and every
`callMethod` (`const messageId = ++this.messageId`) — allocates the next
id by pre-increment.  `callMethod` then arms a one-shot
`this.ws.once('message', ...)` listener that settles the call only when
the received id equals the allocated one. -/

/-- The pre-increment `++this.messageId`: returns the new value and the
new counter state. -/
def nextMessageId (s : Nat) : Nat × Nat := (s + 1, s + 1)

/-- The ids allocated by `n` successive correlated calls starting from
counter state `s`. -/
def allocFrom (s : Nat) : Nat → List Nat
  | 0 => []
  | n + 1 => (nextMessageId s).1 :: allocFrom (nextMessageId s).2 n

/-- The ids allocated to the first `n` correlated calls of a fresh
session (`this.messageId = 0`). -/
def sessionIds (n : Nat) : List Nat := allocFrom 0 n

/-- A message arriving on the channel, as read by the one-shot listener:
its `id`, and its `error` / `result` fields. -/
structure WireMsg where
  id : Nat
  error : Option String
  result : Option String
deriving DecidableEq, Repr

/-- What can become of a pending `callMethod` promise. -/
inductive CallOutcome where
  | resolvedOk (r : Option String)
  | rejectedErr (e : String)
  | unsettled
deriving DecidableEq, Repr

/-- The `callMethod` response handling: a one-shot listener examines
only the first message that arrives after the send; it resolves or
rejects only when that message's id equals the call's MessageId, and
otherwise leaves the promise pending (there is no re-arm and no
call-level timeout). -/
def settleOnce (mid : Nat) (incoming : List WireMsg) : CallOutcome :=
  match incoming with
  | [] => .unsettled
  | m :: _ =>
    if m.id = mid then
      match m.error with
      | some e => .rejectedErr (methodErr e)
      | none => .resolvedOk m.result
    else .unsettled

theorem allocFrom_eq_range (s : Nat) :
    ∀ n, allocFrom s n = List.range' (s + 1) n := by
  intro n
  induction n generalizing s with
  | zero => rfl
  | succ n ih =>
    simp [allocFrom, nextMessageId, ih, List.range']

/-- C2: within one session the id allocated to the Nth correlated call
(authentication call included) is N (here 0-indexed: entry `i` holds
`i + 1`), the ids are strictly increasing and never repeat, and a
pending call settles only on a response bearing exactly its id. -/
theorem messageId_allocation (n i j : Nat)
    (hi : i < (sessionIds n).length) (hj : j < (sessionIds n).length) :
    (sessionIds n).get ⟨i, hi⟩ = i + 1 ∧
    (i < j → (sessionIds n).get ⟨i, hi⟩ < (sessionIds n).get ⟨j, hj⟩) ∧
    (sessionIds n).Nodup ∧
    (∀ mid m rest, settleOnce mid (m :: rest) ≠ .unsettled →
      m.id = mid) := by
  have hs : sessionIds n = List.range' 1 n := allocFrom_eq_range 0 n
  have hget : ∀ (k : Nat) (hk : k < (sessionIds n).length),
      (sessionIds n).get ⟨k, hk⟩ = k + 1 := by
    intro k hk
    rw [List.get_of_eq hs ⟨k, hk⟩]
    simp [List.get_eq_getElem, List.getElem_range'_1, Nat.add_comm]
  refine ⟨hget i hi, fun hij => ?_, ?_, ?_⟩
  · rw [hget i hi, hget j hj]
    omega
  · rw [hs]
    exact List.nodup_range' _ _
  · intro mid m rest hne
    by_cases hid : m.id = mid
    · exact hid
    · exact absurd (by simp [settleOnce, hid]) hne

theorem messageId_allocation_witness :
    0 < (sessionIds 3).length ∧ 2 < (sessionIds 3).length ∧
    sessionIds 3 = [1, 2, 3] ∧
    (sessionIds 3).get ⟨0, by decide⟩ = 1 ∧
    (sessionIds 3).Nodup :=
  ⟨by decide, by decide, by decide,
    (messageId_allocation 3 0 2 (by decide) (by decide)).1,
    (messageId_allocation 3 0 2 (by decide) (by decide)).2.2.1⟩

/-- C10: the one-shot listener looks only at the first incoming message
— the outcome is independent of everything after it; a first message
with a non-matching id leaves the call unsettled (even if a matching
response arrives later, it is never examined — and with no call-level
timeout the call then waits forever, modelled by the absence of any
other settling rule); and conversely a call settles only when the first
message's id matches, so a non-matching message never wrongly settles
the call. -/
theorem callMethod_one_shot (mid : Nat) (m : WireMsg)
    (rest : List WireMsg) :
    settleOnce mid (m :: rest) = settleOnce mid [m] ∧
    (m.id ≠ mid → settleOnce mid (m :: rest) = .unsettled) ∧
    (settleOnce mid (m :: rest) ≠ .unsettled → m.id = mid) ∧
    settleOnce mid [] = .unsettled := by
  refine ⟨rfl, fun hid => by simp [settleOnce, hid], ?_, rfl⟩
  intro hne
  by_cases hid : m.id = mid
  · exact hid
  · exact absurd (by simp [settleOnce, hid]) hne

theorem callMethod_one_shot_witness :
    (WireMsg.id ⟨2, none, none⟩ ≠ 1) ∧
    settleOnce 1 [⟨2, none, none⟩, ⟨1, none, some "r"⟩] =
      .unsettled ∧
    settleOnce 1 [] = .unsettled :=
  ⟨by decide,
    (callMethod_one_shot 1 ⟨2, none, none⟩ [⟨1, none, some "r"⟩]).2.1
      (by decide),
    (callMethod_one_shot 1 ⟨2, none, none⟩ [⟨1, none, some "r"⟩]).2.2.2⟩

end TrueNAS
